import Mathlib

/-!
Verification development for the baryon scene-graph / color library
(`src/lib.rs`).  The Rust code is shallowly embedded: `f32` values are
represented by the exactly-representable rational they denote, with the
IEEE-754 binary32 round-to-nearest-even rounding applied explicitly at
every arithmetic operation the source performs; `u32` values are
represented by `ℕ` with wrapping (`% 2^32`) made explicit where a cast
occurs; the mutable `Scene` is threaded by explicit state passing.

All definitions are written with the executable rational primitives
`mkRat`, `Rat.blt`, `Rat.floor`, `Rat.neg` and `Rat.ofInt` (which the
kernel can evaluate), together with the helpers `qmul`, `qsub`, `qdiv`
below; these agree with the ambient field operations on `ℚ`, as proved
in `qmul_eq_mul`, `qsub_eq_sub`, `qdiv_eq_div`.
-/

namespace Baryon

/-- Exact rational multiplication, kernel-computable. -/
def qmul (a b : ℚ) : ℚ := mkRat (a.num * b.num) (a.den * b.den)

/-- Exact rational subtraction, kernel-computable. -/
def qsub (a b : ℚ) : ℚ := mkRat (a.num * b.den - b.num * a.den) (a.den * b.den)

/-- Exact rational division, kernel-computable (`b ≠ 0` in all uses). -/
def qdiv (a b : ℚ) : ℚ := Rat.divInt (a.num * b.den) (a.den * b.num)

theorem qmul_eq_mul (a b : ℚ) : qmul a b = a * b := by
  have ha : (a.den : ℚ) ≠ 0 := Nat.cast_ne_zero.2 a.den_nz
  have hb : (b.den : ℚ) ≠ 0 := Nat.cast_ne_zero.2 b.den_nz
  rw [qmul, Rat.mkRat_eq_divInt, Rat.divInt_eq_div]
  push_cast
  conv_rhs => rw [← Rat.num_div_den a, ← Rat.num_div_den b]
  field_simp

theorem qsub_eq_sub (a b : ℚ) : qsub a b = a - b := by
  have ha : (a.den : ℚ) ≠ 0 := Nat.cast_ne_zero.2 a.den_nz
  have hb : (b.den : ℚ) ≠ 0 := Nat.cast_ne_zero.2 b.den_nz
  rw [qsub, Rat.mkRat_eq_divInt, Rat.divInt_eq_div]
  push_cast
  conv_rhs => rw [← Rat.num_div_den a, ← Rat.num_div_den b]
  field_simp
  ring

theorem qdiv_eq_div (a b : ℚ) (hb : b ≠ 0) : qdiv a b = a / b := by
  have ha : (a.den : ℚ) ≠ 0 := Nat.cast_ne_zero.2 a.den_nz
  have hbd : (b.den : ℚ) ≠ 0 := Nat.cast_ne_zero.2 b.den_nz
  have hbn : (b.num : ℚ) ≠ 0 := Int.cast_ne_zero.2 (Rat.num_ne_zero.2 hb)
  rw [qdiv, Rat.divInt_eq_div]
  push_cast
  conv_rhs => rw [← Rat.num_div_den a, ← Rat.num_div_den b]
  rw [div_div_div_eq]

/-! ### A model of IEEE binary32 values and rounding

An `f32` value is modelled by the rational number it denotes.  `fl32`
rounds an arbitrary rational to the nearest binary32 value
(round-to-nearest, ties to even), valid on the normal range
`[2^-32, 2^32]` in magnitude, which covers every value occurring in this
development (subnormals, overflow, infinities and NaN never arise here).
-/

/-- Round a rational to the nearest integer, ties to even. -/
def rne (q : ℚ) : ℤ :=
  let f := Rat.floor q
  let frac := qsub q (Rat.ofInt f)
  if Rat.blt frac (mkRat 1 2) then f
  else if Rat.blt (mkRat 1 2) frac then f + 1
  else if f % 2 = 0 then f else f + 1

/-- `2 ^ e` as a rational, for an integer exponent. -/
def pow2 (e : ℤ) : ℚ :=
  if 0 ≤ e then ((2 ^ e.toNat : ℕ) : ℚ) else mkRat 1 (2 ^ (-e).toNat)

/-- Greatest `e ∈ [-32, 32]` with `2 ^ e ≤ q` (sufficient range for
every value occurring in the color arithmetic). -/
def floorLog2 (q : ℚ) : ℤ :=
  (List.range 65).foldl
    (fun acc i => if Rat.blt q (pow2 ((i : ℤ) - 32)) then acc else (i : ℤ) - 32)
    (-32)

/-- binary32 rounding of a positive rational: round the 24-bit
significand to nearest, ties to even. -/
def fl32abs (q : ℚ) : ℚ :=
  let e := floorLog2 q
  qmul (Rat.ofInt (rne (qmul q (pow2 (23 - e))))) (pow2 (e - 23))

/-- binary32 rounding (round to nearest, ties to even) of a rational. -/
def fl32 (q : ℚ) : ℚ :=
  if q = 0 then 0 else if Rat.blt q 0 then Rat.neg (fl32abs (Rat.neg q)) else fl32abs q

/-- Rust `f32::clamp(self, lo, hi)` on finite values: exact comparisons,
no rounding. -/
def ratClamp (v lo hi : ℚ) : ℚ :=
  if Rat.blt v lo then lo else if Rat.blt hi v then hi else v

/-! ### `Color` — `pub struct Color(pub u32)`

Source doc comment: "Order of components is: A, R, G, B". -/

/-- `pub struct Color(pub u32)`: a 32-bit packed ARGB value. -/
structure Color where
  val : ℕ
deriving DecidableEq

namespace Color

/-- `pub const BLACK_TRANSPARENT: Self = Self(0x0)` -/
def BLACK_TRANSPARENT : Color := ⟨0x0⟩

/-- `pub const BLACK_OPAQUE: Self = Self(0xFF000000)` -/
def BLACK_OPAQUE : Color := ⟨0xFF000000⟩

/-- `pub const RED: Self = Self(0xFF0000FF)` -/
def RED : Color := ⟨0xFF0000FF⟩

/-- `pub const GREEN: Self = Self(0xFF00FF00)` -/
def GREEN : Color := ⟨0xFF00FF00⟩

/-- `pub const BLUE: Self = Self(0xFFFF0000)` -/
def BLUE : Color := ⟨0xFFFF0000⟩

/-- `fn import(value: f32) -> u32 { (value.clamp(0.0, 1.0) * 255.0) as u32 }`
(named `import32` because `import` is reserved in Lean).  The `f32`
multiplication is rounded by `fl32`; the Rust `as u32` cast truncates
toward zero and saturates (negative to `0`, above `u32::MAX` to
`2^32 - 1`). -/
def import32 (value : ℚ) : ℕ :=
  min (Rat.floor (fl32 (qmul (ratClamp value 0 1) 255))).toNat (2 ^ 32 - 1)

/-- `pub fn new(red, green, blue, alpha) -> Self`: packs the four
channels as `(A << 24) | (R << 16) | (G << 8) | B`. -/
def new (red green blue alpha : ℚ) : Color :=
  ⟨(import32 alpha) <<< 24 ||| (import32 red) <<< 16 |||
      (import32 green) <<< 8 ||| import32 blue⟩

/-- `fn export(self, index: u32) -> f32 { ((self.0 >> (index << 3)) & 0xFF) as f32 / 255.0 }`
(named `export32` because `export` is reserved in Lean).  The extracted
byte is at most `255`, hence exact as an `f32`; the division by `255.0`
is rounded by `fl32`. -/
def export32 (c : Color) (index : ℕ) : ℚ :=
  fl32 (qdiv (((c.val >>> (index <<< 3)) &&& 0xFF : ℕ) : ℚ) 255)

/-- `pub fn red(self) -> f32 { self.export(2) }` -/
def red (c : Color) : ℚ := c.export32 2

/-- `pub fn green(self) -> f32 { self.export(1) }` -/
def green (c : Color) : ℚ := c.export32 1

/-- `pub fn blue(self) -> f32 { self.export(0) }` -/
def blue (c : Color) : ℚ := c.export32 0

/-- `pub fn alpha(self) -> f32 { self.export(3) }` -/
def alpha (c : Color) : ℚ := c.export32 3

/-- `impl Default for Color { fn default() -> Self { Color::BLACK_OPAQUE } }` -/
def default : Color := BLACK_OPAQUE

end Color

/-! ### The scene graph — `mint` value types, `NodeRef`, `Space`, `Node` -/

/-- `mint::Vector3<f32>`: fields are `f32` values, modelled as `ℚ`. -/
structure Vector3 where
  x : ℚ
  y : ℚ
  z : ℚ
deriving DecidableEq

/-- `mint::Quaternion<f32>`: scalar part `s`, vector part `v`. -/
structure Quaternion where
  s : ℚ
  v : Vector3
deriving DecidableEq

/-- `#[derive(Clone, Copy, Debug, Default, PartialEq)] pub struct NodeRef(u32)` -/
structure NodeRef where
  idx : ℕ
deriving DecidableEq

/-- The derived `Default` for `NodeRef`: `NodeRef(0)`. -/
def NodeRef.default : NodeRef := ⟨0⟩

/-- `struct Space { position, scale, orientation }` (the local transform).
The field `local` of `Node` is named `locl` because `local` is reserved
in Lean.  Derived `PartialEq` on `f32` fields is modelled by equality of
the denoted rationals (NaN never arises in this development). -/
structure Space where
  position : Vector3
  scale : ℚ
  orientation : Quaternion
deriving DecidableEq

/-- `impl Default for Space`: position `(0,0,0)`, scale `1.0`,
orientation `(1, (0,0,0))`. -/
def Space.default : Space := ⟨⟨0, 0, 0⟩, 1, ⟨1, ⟨0, 0, 0⟩⟩⟩

/-- `#[derive(Default, Debug, PartialEq)] struct Node { parent: NodeRef, local: Space }` -/
structure Node where
  parent : NodeRef
  locl : Space
deriving DecidableEq

/-- The derived `Default` for `Node`. -/
def Node.default : Node := ⟨NodeRef.default, Space.default⟩

/-! ### The entity store — the external `hecs` collaborator

`hecs` is an external dependency of the repository, specified by the
spec only through its boundary contract (§4.2, §6): a typed
heterogeneous store with atomic bundle insertion and unique identifier
issuance, where an `EntityBuilder` accumulates at most one component per
type (adding a component of an already-present type replaces it).  It is
modelled here accordingly: a component is a type key together with a
value, a builder is the accumulated list, a world is the list of spawned
bundles with the entity reference being the spawn index. -/

/-- A typed component value: the library-recognised `NodeRef` and
`Color` components, plus arbitrary caller-supplied typed data. -/
inductive Component where
  | nodeRef (r : NodeRef)
  | color (c : Color)
  | other (ty : ℕ) (data : ℤ)
deriving DecidableEq

/-- The `TypeId` of a component. -/
def Component.key : Component → ℕ
  | .nodeRef _ => 0
  | .color _ => 1
  | .other ty _ => ty + 2

/-- Is this component a `NodeRef` value? -/
def Component.isNodeRef : Component → Bool
  | .nodeRef _ => true
  | _ => false

/-- `hecs::EntityBuilder`: the accumulated component bundle. -/
abbrev EntityBuilder := List Component

/-- `hecs::EntityBuilder::new()`: empty bundle. -/
def EntityBuilder.new : EntityBuilder := []

/-- `hecs::EntityBuilder::add`: adds a component, replacing any
previously added component of the same type. -/
def EntityBuilder.add (b : EntityBuilder) (c : Component) : EntityBuilder :=
  b.filter (fun x => x.key != c.key) ++ [c]

/-- `pub type EntityRef = hecs::Entity`, modelled as the spawn index. -/
abbrev EntityRef := ℕ

/-- `hecs::World`: the list of spawned component bundles. -/
abbrev World := List (List Component)

/-- `hecs::World::spawn`: stores the bundle atomically, returning a
fresh entity reference. -/
def World.spawn (w : World) (bundle : List Component) : EntityRef × World :=
  (w.length, w ++ [bundle])

/-! ### `Scene` and `ObjectBuilder` -/

/-- `#[derive(Default)] pub struct Scene { world, nodes, pub background }` -/
structure Scene where
  world : World
  nodes : List Node
  background : Color

/-- The derived `Default` for `Scene`: empty stores, default background. -/
def Scene.default : Scene := ⟨[], [], Color.default⟩

/-- `fn add_node(&mut self, node: Node) -> NodeRef`: if the local
transform equals the default `Space`, return the parent reference and
leave the store untouched; otherwise push the node and return its index
(cast `usize as u32`, hence the `% 2 ^ 32`). -/
def Scene.add_node (s : Scene) (node : Node) : NodeRef × Scene :=
  if node.locl = Space.default then (node.parent, s)
  else (⟨s.nodes.length % 2 ^ 32⟩, { s with nodes := s.nodes ++ [node] })

/-- `pub struct ObjectBuilder<'a, T> { scene, node, kind }`.  The
`&'a mut Scene` borrow is modelled by owning the scene and returning the
updated scene from the terminal `build`. -/
structure ObjectBuilder (T : Type) where
  scene : Scene
  node : Node
  kind : T

/-- `pub fn entity(&mut self) -> ObjectBuilder<hecs::EntityBuilder>` -/
def Scene.entity (s : Scene) : ObjectBuilder EntityBuilder :=
  ⟨s, Node.default, EntityBuilder.new⟩

/-- `pub fn position(mut self, position) -> Self`: overwrites only the
accumulating node's position field. -/
def ObjectBuilder.position {T : Type} (b : ObjectBuilder T) (p : Vector3) :
    ObjectBuilder T :=
  { b with node := { b.node with locl := { b.node.locl with position := p } } }

/-- `pub fn component<T: hecs::Component>(mut self, component: T) -> Self` -/
def ObjectBuilder.component (b : ObjectBuilder EntityBuilder) (c : Component) :
    ObjectBuilder EntityBuilder :=
  { b with kind := b.kind.add c }

/-- `impl ObjectBuilder<'_, ()> { pub fn build(self) -> NodeRef }`:
commits the node, returning the node reference (and, in this embedding,
the updated scene). -/
def ObjectBuilder.buildUntyped (b : ObjectBuilder Unit) : NodeRef × Scene :=
  b.scene.add_node b.node

/-- `impl ObjectBuilder<'_, hecs::EntityBuilder> { pub fn build(mut self) -> EntityRef }`:
commits the node, adds the resulting `NodeRef` as an extra component,
and spawns the bundle. -/
def ObjectBuilder.buildTyped (b : ObjectBuilder EntityBuilder) : EntityRef × Scene :=
  let nr := b.scene.add_node b.node
  let built := b.kind.add (Component.nodeRef nr.1)
  let ew := nr.2.world.spawn built
  (ew.1, { nr.2 with world := ew.2 })

/-- Committing a sequence of nodes, in order. -/
def commitAll (s : Scene) (ns : List Node) : Scene :=
  ns.foldl (fun s n => (s.add_node n).2) s

/-- `add_node` never touches the entity store. -/
theorem add_node_world (s : Scene) (n : Node) : (s.add_node n).2.world = s.world := by
  unfold Scene.add_node
  split <;> rfl

/-- `add_node` never touches the background. -/
theorem add_node_background (s : Scene) (n : Node) :
    (s.add_node n).2.background = s.background := by
  unfold Scene.add_node
  split <;> rfl

/-- A sample non-identity node (position `(1,2,3)`), used in witnesses. -/
def sampleNode : Node := ⟨⟨0⟩, ⟨⟨1, 2, 3⟩, 1, ⟨1, ⟨0, 0, 0⟩⟩⟩⟩

/-- A sample scene holding exactly one node, used in witnesses. -/
def sampleScene : Scene := ⟨[], [sampleNode], Color.default⟩

/-! ### The claims -/

/-- **C1** — Dedup law: committing a node whose local transform equals
the identity `Space` returns the candidate's parent reference unchanged
and leaves the scene (in particular the node store's length and
contents) unchanged; nothing is allocated. -/
theorem add_node_identity_dedup (s : Scene) (node : Node)
    (h : node.locl = Space.default) :
    (s.add_node node).1 = node.parent ∧ (s.add_node node).2 = s := by
  simp [Scene.add_node, h]

theorem add_node_identity_dedup_witness :
    Node.default.locl = Space.default ∧
      (sampleScene.add_node Node.default).1 = Node.default.parent ∧
      (sampleScene.add_node Node.default).2 = sampleScene :=
  ⟨rfl, add_node_identity_dedup sampleScene Node.default rfl⟩

/-- **C2** — Every Typed build first commits the accumulated node (its
node store is exactly the one produced by `add_node`), then spawns
exactly one entity whose bundle is the accumulator extended with the
committed node reference; the spawned bundle contains exactly one
`NodeRef` component, and the returned entity reference is the fresh
spawn index. -/
theorem buildTyped_entity_has_one_node_ref (b : ObjectBuilder EntityBuilder) :
    ∃ bundle : List Component,
      bundle = b.kind.add (Component.nodeRef (b.scene.add_node b.node).1) ∧
      (b.buildTyped).2.world = b.scene.world ++ [bundle] ∧
      bundle.countP (fun c => c.isNodeRef) = 1 ∧
      (b.buildTyped).1 = b.scene.world.length ∧
      (b.buildTyped).2.nodes = (b.scene.add_node b.node).2.nodes := by
  refine ⟨b.kind.add (Component.nodeRef (b.scene.add_node b.node).1), rfl, ?_, ?_, ?_, rfl⟩
  · show (b.scene.add_node b.node).2.world ++ _ = b.scene.world ++ _
    rw [add_node_world]
  · rw [EntityBuilder.add, List.countP_append]
    have hz : List.countP (fun c => c.isNodeRef)
        (b.kind.filter fun x => x.key != (Component.nodeRef (b.scene.add_node b.node).1).key) = 0 := by
      rw [List.countP_eq_zero]
      intro c hc
      rcases List.mem_filter.1 hc with ⟨-, hk⟩
      cases c <;> simp_all [Component.key, Component.isNodeRef]
    rw [hz]
    rfl
  · show (b.scene.add_node b.node).2.world.length = b.scene.world.length
    rw [add_node_world]

/-- **C3** — Append-only growth: committing a non-identity node appends
it (so the length grows by exactly one and the new node is stored at
the returned index, which equals the old length as long as it fits in
`u32`), and any sequence of further commits leaves every previously
stored node resolvable at its old index. -/
theorem add_node_append_only (s : Scene) (node : Node) (ns : List Node) (i : ℕ) :
    (node.locl ≠ Space.default →
      (s.add_node node).2.nodes = s.nodes ++ [node] ∧
        (s.nodes.length < 2 ^ 32 → (s.add_node node).1 = ⟨s.nodes.length⟩)) ∧
    (i < s.nodes.length → (commitAll s ns).nodes[i]? = s.nodes[i]?) := by
  constructor
  · intro h
    constructor
    · simp [Scene.add_node, h]
    · intro hlen
      simp [Scene.add_node, h]
      omega
  · intro hi
    induction ns generalizing s with
    | nil => rfl
    | cons n ns ih =>
      show (commitAll (s.add_node n).2 ns).nodes[i]? = _
      have hpres : (s.add_node n).2.nodes[i]? = s.nodes[i]? := by
        unfold Scene.add_node
        split
        · rfl
        · exact List.getElem?_append_left hi
      have hlt : i < (s.add_node n).2.nodes.length := by
        unfold Scene.add_node
        split
        · exact hi
        · simp only [List.length_append, List.length_cons, List.length_nil]
          omega
      rw [ih _ hlt, hpres]

theorem add_node_append_only_witness :
    sampleNode.locl ≠ Space.default ∧ sampleScene.nodes.length < 2 ^ 32 ∧
      0 < sampleScene.nodes.length ∧
      (sampleScene.add_node sampleNode).2.nodes = sampleScene.nodes ++ [sampleNode] ∧
      (sampleScene.add_node sampleNode).1 = ⟨sampleScene.nodes.length⟩ ∧
      (commitAll sampleScene [sampleNode]).nodes[0]? = sampleScene.nodes[0]? := by
  have h := add_node_append_only sampleScene sampleNode [sampleNode] 0
  exact ⟨by decide, by decide, by decide,
    (h.1 (by decide)).1, (h.1 (by decide)).2 (by decide), h.2 (by decide)⟩

/-- **C6** — Builder round-trip: building an Untyped builder configured
with `position = (1,2,3)` (defaults elsewhere) yields a node reference
that resolves, in the updated scene's node store, to a stored node whose
local transform's position is `(1,2,3)`. -/
theorem buildUntyped_position_roundtrip (s : Scene) (h : s.nodes.length < 2 ^ 32) :
    (((ObjectBuilder.mk s Node.default ()).position ⟨1, 2, 3⟩).buildUntyped).2.nodes[
        ((((ObjectBuilder.mk s Node.default ()).position ⟨1, 2, 3⟩).buildUntyped).1).idx]?.map
      (fun n => n.locl.position) = some ⟨1, 2, 3⟩ := by
  show ((s.add_node sampleNode).2.nodes[((s.add_node sampleNode).1).idx]?.map
      (fun n => n.locl.position)) = some ⟨1, 2, 3⟩
  rw [Scene.add_node, if_neg (by decide : ¬(sampleNode.locl = Space.default))]
  dsimp only
  rw [Nat.mod_eq_of_lt h, List.getElem?_concat_length]
  rfl

theorem buildUntyped_position_roundtrip_witness :
    Scene.default.nodes.length < 2 ^ 32 ∧
      (((ObjectBuilder.mk Scene.default Node.default ()).position ⟨1, 2, 3⟩).buildUntyped).2.nodes[
          ((((ObjectBuilder.mk Scene.default Node.default ()).position ⟨1, 2, 3⟩).buildUntyped).1).idx]?.map
        (fun n => n.locl.position) = some ⟨1, 2, 3⟩ :=
  ⟨by decide, buildUntyped_position_roundtrip Scene.default (by decide)⟩

/-- **C7** — `position` is pure configuration: it overwrites only the
accumulating node's position (parent, scale, orientation are unchanged),
returns the builder, and has no effect on the scene (node store, entity
store and background included) until `build` is called. -/
theorem position_overwrites_only_position {T : Type} (b : ObjectBuilder T) (v : Vector3) :
    (b.position v).node.locl.position = v ∧
      (b.position v).node.parent = b.node.parent ∧
      (b.position v).node.locl.scale = b.node.locl.scale ∧
      (b.position v).node.locl.orientation = b.node.locl.orientation ∧
      (b.position v).scene = b.scene ∧
      (b.position v).kind = b.kind :=
  ⟨rfl, rfl, rfl, rfl, rfl, rfl⟩

/-- **C8** — Scene default: a freshly constructed scene has an empty
node store and background equal to opaque black `0xFF000000` (the
packed ARGB default color); its entity store is empty as well. -/
theorem scene_default_spec :
    Scene.default.nodes = [] ∧ Scene.default.background = ⟨0xFF000000⟩ ∧
      Color.default = ⟨0xFF000000⟩ ∧ Scene.default.world = [] :=
  ⟨rfl, rfl, rfl, rfl⟩

/-- **C9** — On an empty scene, committing a non-identity node returns
`NodeRef(0)`, which is exactly the default (root) node reference: the
root reference and the reference to the first stored node coincide. -/
theorem add_node_root_ambiguity (s : Scene) (node : Node)
    (h0 : s.nodes = []) (h : node.locl ≠ Space.default) :
    (s.add_node node).1 = NodeRef.default ∧ NodeRef.default = ⟨0⟩ := by
  refine ⟨?_, rfl⟩
  rw [Scene.add_node, if_neg h, h0]
  rfl

theorem add_node_root_ambiguity_witness :
    Scene.default.nodes = [] ∧ sampleNode.locl ≠ Space.default ∧
      (Scene.default.add_node sampleNode).1 = NodeRef.default ∧ NodeRef.default = ⟨0⟩ :=
  ⟨rfl, by decide, add_node_root_ambiguity Scene.default sampleNode rfl (by decide)⟩

/-- **C4** — The constants contradict the declared A,R,G,B packing: the
source's own doc comment ("Order of components is: A, R, G, B"), `new`,
and the accessors put red at bits 16–23, but `RED = 0xFF0000FF` has its
`0xFF` in the blue byte (bits 0–7) and `BLUE = 0xFFFF0000` in the red
byte.  Hence `Color::RED.red()` reads `0.0` and `Color::RED.blue()`
reads `1.0` — the RED and BLUE constants are swapped.  `GREEN`, the
transparent-black constant and the default are as documented. -/
theorem color_red_blue_constants_swapped :
    Color.red Color.RED = 0 ∧ Color.blue Color.RED = 1 ∧
      Color.green Color.RED = 0 ∧ Color.alpha Color.RED = 1 ∧
      Color.red Color.BLUE = 1 ∧ Color.blue Color.BLUE = 0 ∧
      Color.green Color.GREEN = 1 ∧
      Color.BLACK_TRANSPARENT = ⟨0x00000000⟩ ∧ Color.default = ⟨0xFF000000⟩ := by
  refine ⟨?_, ?_, ?_, ?_, ?_, ?_, ?_, rfl, rfl⟩ <;> decide

set_option maxRecDepth 8000 in
set_option maxHeartbeats 4000000 in
/-- `import32` maps the binary32 value of the 8-bit quantized step
`k/255` back to exactly `k`, for every `k < 256`. -/
theorem import32_roundtrip (k : Fin 256) :
    Color.import32 (fl32 (mkRat ((k : ℕ) : ℤ) 255)) = (k : ℕ) := by
  revert k
  decide

theorem mkRat_255_eq (n : ℕ) : (mkRat (n : ℤ) 255 : ℚ) = (n : ℚ) / 255 := by
  rw [Rat.mkRat_eq_divInt, Rat.divInt_eq_div]
  push_cast
  rfl

/-- Packing four bytes by shift-and-or equals the weighted sum. -/
theorem pack_bytes_eq (a r g b : ℕ) (hr : r < 256) (hg : g < 256) (hb : b < 256) :
    a <<< 24 ||| r <<< 16 ||| g <<< 8 ||| b =
      2 ^ 24 * a + 2 ^ 16 * r + 2 ^ 8 * g + b := by
  have e24 : a <<< 24 = 2 ^ 24 * a := by rw [Nat.shiftLeft_eq, Nat.mul_comm]
  have e16 : r <<< 16 = 2 ^ 16 * r := by rw [Nat.shiftLeft_eq, Nat.mul_comm]
  have e8 : g <<< 8 = 2 ^ 8 * g := by rw [Nat.shiftLeft_eq, Nat.mul_comm]
  have h16 : 2 ^ 16 * r < 2 ^ 24 := by norm_num; omega
  have h8 : 2 ^ 8 * g < 2 ^ 16 := by norm_num; omega
  have hb8 : b < 2 ^ 8 := by norm_num; omega
  have inner1 : (2 : ℕ) ^ 24 * a + 2 ^ 16 * r + 2 ^ 8 * g =
      2 ^ 24 * a ||| 2 ^ 16 * r ||| 2 ^ 8 * g := by
    calc (2 : ℕ) ^ 24 * a + 2 ^ 16 * r + 2 ^ 8 * g
        = 2 ^ 16 * (2 ^ 8 * a + r) + 2 ^ 8 * g := by ring
      _ = 2 ^ 16 * (2 ^ 8 * a + r) ||| 2 ^ 8 * g := Nat.mul_add_lt_is_or h8 _
      _ = (2 ^ 24 * a + 2 ^ 16 * r) ||| 2 ^ 8 * g := by
            rw [show (2 : ℕ) ^ 16 * (2 ^ 8 * a + r) = 2 ^ 24 * a + 2 ^ 16 * r by ring]
      _ = (2 ^ 24 * a ||| 2 ^ 16 * r) ||| 2 ^ 8 * g := by
            rw [Nat.mul_add_lt_is_or h16 a]
  calc a <<< 24 ||| r <<< 16 ||| g <<< 8 ||| b
      = 2 ^ 24 * a ||| 2 ^ 16 * r ||| 2 ^ 8 * g ||| b := by rw [e24, e16, e8]
    _ = (2 ^ 24 * a + 2 ^ 16 * r + 2 ^ 8 * g) ||| b := by rw [inner1]
    _ = 2 ^ 8 * (2 ^ 16 * a + 2 ^ 8 * r + g) ||| b := by
          rw [show (2 : ℕ) ^ 24 * a + 2 ^ 16 * r + 2 ^ 8 * g =
            2 ^ 8 * (2 ^ 16 * a + 2 ^ 8 * r + g) by ring]
    _ = 2 ^ 8 * (2 ^ 16 * a + 2 ^ 8 * r + g) + b := (Nat.mul_add_lt_is_or hb8 _).symm
    _ = 2 ^ 24 * a + 2 ^ 16 * r + 2 ^ 8 * g + b := by ring

/-- Extracting each byte of the packed word recovers the channel. -/
theorem pack_bytes_extract (a r g b : ℕ)
    (ha : a < 256) (hr : r < 256) (hg : g < 256) (hb : b < 256) :
    (a <<< 24 ||| r <<< 16 ||| g <<< 8 ||| b) >>> 24 &&& 0xFF = a ∧
      (a <<< 24 ||| r <<< 16 ||| g <<< 8 ||| b) >>> 16 &&& 0xFF = r ∧
      (a <<< 24 ||| r <<< 16 ||| g <<< 8 ||| b) >>> 8 &&& 0xFF = g ∧
      (a <<< 24 ||| r <<< 16 ||| g <<< 8 ||| b) >>> 0 &&& 0xFF = b := by
  rw [pack_bytes_eq a r g b hr hg hb]
  refine ⟨?_, ?_, ?_, ?_⟩ <;>
    · rw [Nat.shiftRight_eq_div_pow, show (0xFF : ℕ) = 2 ^ 8 - 1 by norm_num,
        Nat.and_pow_two_sub_one_eq_mod]
      norm_num
      omega

/-- **C5** — Color round-trip: for quantized channel values `k/255`
(`k < 256`, taken as the binary32 value `fl32 (k/255)` an `f32` caller
would hold), `new` followed by each channel accessor reproduces the
value exactly; and `new` clamps out-of-range inputs, so
`Color::new(2.0, -1.0, 0.5, 0.5)` packs the same word as
`Color::new(1.0, 0.0, 0.5, 0.5)`. -/
theorem color_roundtrip (r g b a : Fin 256) :
    (Color.new (fl32 (((r : ℕ) : ℚ) / 255)) (fl32 (((g : ℕ) : ℚ) / 255))
          (fl32 (((b : ℕ) : ℚ) / 255)) (fl32 (((a : ℕ) : ℚ) / 255))).red =
        fl32 (((r : ℕ) : ℚ) / 255) ∧
      (Color.new (fl32 (((r : ℕ) : ℚ) / 255)) (fl32 (((g : ℕ) : ℚ) / 255))
          (fl32 (((b : ℕ) : ℚ) / 255)) (fl32 (((a : ℕ) : ℚ) / 255))).green =
        fl32 (((g : ℕ) : ℚ) / 255) ∧
      (Color.new (fl32 (((r : ℕ) : ℚ) / 255)) (fl32 (((g : ℕ) : ℚ) / 255))
          (fl32 (((b : ℕ) : ℚ) / 255)) (fl32 (((a : ℕ) : ℚ) / 255))).blue =
        fl32 (((b : ℕ) : ℚ) / 255) ∧
      (Color.new (fl32 (((r : ℕ) : ℚ) / 255)) (fl32 (((g : ℕ) : ℚ) / 255))
          (fl32 (((b : ℕ) : ℚ) / 255)) (fl32 (((a : ℕ) : ℚ) / 255))).alpha =
        fl32 (((a : ℕ) : ℚ) / 255) ∧
      Color.new 2 (-1) (1 / 2) (1 / 2) = Color.new 1 0 (1 / 2) (1 / 2) := by
  have him : ∀ k : Fin 256, Color.import32 (fl32 (((k : ℕ) : ℚ) / 255)) = (k : ℕ) := by
    intro k
    rw [← mkRat_255_eq]
    exact import32_roundtrip k
  have hval : (Color.new (fl32 (((r : ℕ) : ℚ) / 255)) (fl32 (((g : ℕ) : ℚ) / 255))
      (fl32 (((b : ℕ) : ℚ) / 255)) (fl32 (((a : ℕ) : ℚ) / 255))).val =
      (a : ℕ) <<< 24 ||| (r : ℕ) <<< 16 ||| (g : ℕ) <<< 8 ||| (b : ℕ) := by
    rw [Color.new, him r, him g, him b, him a]
  obtain ⟨hea, her, heg, heb⟩ :=
    pack_bytes_extract (a : ℕ) (r : ℕ) (g : ℕ) (b : ℕ) a.isLt r.isLt g.isLt b.isLt
  refine ⟨?_, ?_, ?_, ?_, ?_⟩
  · rw [Color.red, Color.export32, hval, show (2 : ℕ) <<< 3 = 16 from rfl, her,
      qdiv_eq_div _ _ (by norm_num)]
  · rw [Color.green, Color.export32, hval, show (1 : ℕ) <<< 3 = 8 from rfl, heg,
      qdiv_eq_div _ _ (by norm_num)]
  · rw [Color.blue, Color.export32, hval, show (0 : ℕ) <<< 3 = 0 from rfl, heb,
      qdiv_eq_div _ _ (by norm_num)]
  · rw [Color.alpha, Color.export32, hval, show (3 : ℕ) <<< 3 = 24 from rfl, hea,
      qdiv_eq_div _ _ (by norm_num)]
  · rw [show (1 / 2 : ℚ) = mkRat 1 2 by rw [Rat.mkRat_eq_divInt, Rat.divInt_eq_div]; norm_num]
    decide

/-- **C10** — No core operation other than direct assignment changes the
background: `Scene::entity`, `position`, `component` and both `build`
variants preserve the scene's background color. -/
theorem background_never_modified {T : Type} (s : Scene) (b : ObjectBuilder T)
    (bt : ObjectBuilder EntityBuilder) (bu : ObjectBuilder Unit)
    (v : Vector3) (c : Component) :
    (s.entity).scene.background = s.background ∧
      (b.position v).scene.background = b.scene.background ∧
      (bt.component c).scene.background = bt.scene.background ∧
      (bu.buildUntyped).2.background = bu.scene.background ∧
      (bt.buildTyped).2.background = bt.scene.background := by
  refine ⟨rfl, rfl, rfl, add_node_background _ _, ?_⟩
  show (bt.scene.add_node bt.node).2.background = _
  exact add_node_background _ _

end Baryon
